import Mathlib

/-!
# Coolix infrared climate encoder (esphome/components/coolix/coolix.cpp)

A shallow embedding of `CoolixClimate::transmit_state_`, `CoolixClimate::send_data_`
and `CoolixClimate::control`, followed by theorems about the command word and the
pulse train they build.

Conventions of the embedding:
* C++ unsigned integers are natural numbers; every place where the width of the
  machine type is visible (`~mask` on `uint32_t`, `1ULL << n`, the `(uint8_t)` cast)
  carries the width explicitly.
* An array read outside `COOLIX_TEMP_MAP` has no defined value in C++; the table
  lookup therefore returns an `Option`, and so does everything that depends on it.
* The transmit buffer records the `mark`/`space` calls in the order they are made.
-/

namespace esphome
namespace coolix

/-! ## Constants (coolix.cpp, lines 9-61) -/

def COOLIX_OFF : Nat := 0xB27BE0
def COOLIX_DEFAULT_STATE : Nat := 0xB2BFC8
def COOLIX_DEFAULT_STATE_AUTO_FAN : Nat := 0xB21FC8
def COOLIX_COOL : Nat := 0b00
def kCoolixDry : Nat := 0b01
def kCoolixAuto : Nat := 0b10
def COOLIX_HEAT : Nat := 0b11
def kCoolixFan : Nat := 4
def COOLIX_MODE_MASK : Nat := 0b000000000000000000001100

def COOLIX_TEMP_MIN : Nat := 17
def COOLIX_TEMP_MAX : Nat := 30
def kCoolixTempRange : Nat := COOLIX_TEMP_MAX - COOLIX_TEMP_MIN + 1
def kCoolixFanTempCode : Nat := 0b1110
def COOLIX_TEMP_MASK : Nat := 0b11110000
def COOLIX_TEMP_MAP : List Nat :=
  [ 0b0000,  -- 17C
    0b0001,  -- 18C
    0b0011,  -- 19C
    0b0010,  -- 20C
    0b0110,  -- 21C
    0b0111,  -- 22C
    0b0101,  -- 23C
    0b0100,  -- 24C
    0b1100,  -- 25C
    0b1101,  -- 26C
    0b1001,  -- 27C
    0b1000,  -- 28C
    0b1010,  -- 29C
    0b1011 ] -- 30C

def COLLIX_TICK : Nat := 560
def COOLIX_BIT_MARKTicks : Nat := 1
def COOLIX_BIT_MARK : Nat := COOLIX_BIT_MARKTicks * COLLIX_TICK
def COOLIX_ONE_SPACETicks : Nat := 3
def COOLIX_ONE_SPACE : Nat := COOLIX_ONE_SPACETicks * COLLIX_TICK
def COOLIX_ZERO_SPACETicks : Nat := 1
def COOLIX_ZERO_SPACE : Nat := COOLIX_ZERO_SPACETicks * COLLIX_TICK
def COOLIX_HEADER_MARK_TICKS : Nat := 8
def COOLIX_HEADER_MARK : Nat := COOLIX_HEADER_MARK_TICKS * COLLIX_TICK
def COOLIX_HEADER_SPACETicks : Nat := 8
def COOLIX_HEADER_SPACE : Nat := COOLIX_HEADER_SPACETicks * COLLIX_TICK
def COOLIX_MIN_GAP_TICKS : Nat := COOLIX_HEADER_MARK_TICKS + COOLIX_ZERO_SPACETicks
def COOLIX_MIN_GAP : Nat := COOLIX_MIN_GAP_TICKS * COLLIX_TICK

def COOLIX_BITS : Nat := 24

/-! ## Machine-integer helpers -/

/-- Bitwise complement of a `uint32_t` value (`~x`). -/
def not32 (x : Nat) : Nat := (2 ^ 32 - 1) ^^^ (x % 2 ^ 32)

/-- The conversion `(uint8_t) x` of a non-negative integral value. -/
def toUInt8 (x : Nat) : Nat := x % 2 ^ 8

/-! ## Types declared outside coolix.cpp -/

/-- Modelled from the spec: the enum `climate::ClimateMode` is declared in the climate
component, whose header is not part of the sources. The spec (sections 3 and 4.5) names
the four modes the controller exposes, OFF, AUTO, COOL and HEAT, and the two further
modes the protocol can represent, FAN-only and DRY, which reach the `default:` branch
of the switch in `transmit_state_`. -/
inductive ClimateMode where
  | CLIMATE_MODE_OFF
  | CLIMATE_MODE_AUTO
  | CLIMATE_MODE_COOL
  | CLIMATE_MODE_HEAT
  | CLIMATE_MODE_FAN_ONLY
  | CLIMATE_MODE_DRY
  deriving DecidableEq, Repr

open ClimateMode

/-- One call on the transmit buffer: `mark(us)` or `space(us)`. -/
inductive Pulse where
  | mark (us : Nat)
  | space (us : Nat)
  deriving DecidableEq, Repr

/-- Modelled from the spec: `remote_base::RemoteTransmitData` is declared in the
remote_base component, whose header is not part of the sources. Section 6 of the spec
describes what is handed to the transmission medium as an ordered sequence of mark and
space durations plus a carrier frequency; `mark` and `space` append to that sequence
and `set_carrier_frequency` stores the frequency. -/
structure RemoteTransmitData where
  carrier_frequency : Nat
  data : List Pulse
  deriving DecidableEq, Repr

namespace RemoteTransmitData

def mark (d : RemoteTransmitData) (us : Nat) : RemoteTransmitData :=
  { d with data := d.data ++ [Pulse.mark us] }

def space (d : RemoteTransmitData) (us : Nat) : RemoteTransmitData :=
  { d with data := d.data ++ [Pulse.space us] }

def set_carrier_frequency (d : RemoteTransmitData) (hz : Nat) : RemoteTransmitData :=
  { d with carrier_frequency := hz }

/-- Modelled from the spec: the buffer obtained from `transmitter_->transmit().get_data()`.
Section 6 of the spec has every request submitted as one transmit request of its own, so
the buffer starts out with no pulses; the transmitter is not part of the sources. -/
def fresh : RemoteTransmitData := { carrier_frequency := 0, data := [] }

end RemoteTransmitData

/-- The mark/space calls made for a list of (mark, space) pairs. -/
def ofPairs : List (Nat × Nat) → List Pulse
  | [] => []
  | (m, s) :: rest => Pulse.mark m :: Pulse.space s :: ofPairs rest

/-! ## `CoolixClimate::transmit_state_`, lines 97-120: the command word -/

/-- The `switch (this->mode)` of lines 99-113. -/
def base_state (mode : ClimateMode) : Nat :=
  match mode with
  | CLIMATE_MODE_COOL =>
      ((COOLIX_DEFAULT_STATE &&& not32 COOLIX_MODE_MASK) ||| (COOLIX_COOL <<< 2)) % 2 ^ 32
  | CLIMATE_MODE_HEAT =>
      ((COOLIX_DEFAULT_STATE &&& not32 COOLIX_MODE_MASK) ||| (COOLIX_HEAT <<< 2)) % 2 ^ 32
  | CLIMATE_MODE_AUTO => COOLIX_DEFAULT_STATE_AUTO_FAN
  | _ => COOLIX_OFF

/-- The value of `temp` after lines 116-117. Line 116 stores the `std::min` with
`COOLIX_TEMP_MAX`; line 117 assigns `temp` again, from the target temperature and not
from the value line 116 stored. -/
def clamped_temp (target_temperature : Nat) : Nat :=
  let _temp := min (toUInt8 target_temperature) COOLIX_TEMP_MAX
  max (toUInt8 target_temperature) COOLIX_TEMP_MIN

/-- The value of `remote_state` at line 122; `none` when line 119 reads outside
`COOLIX_TEMP_MAP`. -/
def remote_state (mode : ClimateMode) (target_temperature : Nat) : Option Nat :=
  let remote_state := base_state mode
  if mode ≠ CLIMATE_MODE_OFF then
    let temp := clamped_temp target_temperature
    let remote_state := remote_state &&& not32 COOLIX_TEMP_MASK
    match COOLIX_TEMP_MAP[temp - COOLIX_TEMP_MIN]? with
    | some code => some ((remote_state ||| (code <<< 4)) % 2 ^ 32)
    | none => none
  else
    some remote_state

/-! ## `CoolixClimate::send_data_`, lines 168-200

The arguments are values of the C++ parameter types: `data` is a `uint64_t`, `nbits` a
`uint16_t`, the four timings are `uint16_t`/`uint32_t` durations in microseconds. -/

/-- One bit on the wire: a mark followed by a space. -/
def send_bit (d : RemoteTransmitData) (markus spaceus : Nat) : RemoteTransmitData :=
  (d.mark markus).space spaceus

/-- The loop of lines 176-180, `while (nbits > sizeof(data) * 8)`; returns the value of
`nbits` the loop leaves behind together with the buffer. -/
def send_data_pad (zeromark zerospace : Nat) (nbits : Nat) (d : RemoteTransmitData) :
    Nat × RemoteTransmitData :=
  if nbits > 8 * 8 then
    send_data_pad zeromark zerospace (nbits - 1) (send_bit d zeromark zerospace)
  else (nbits, d)
termination_by nbits

/-- The loop of lines 182-189, `for (mask = ...; mask; mask >>= 1)`, entered with the
current value of `mask`. -/
def send_data_msb (onemark onespace zeromark zerospace data : Nat) (mask : Nat)
    (d : RemoteTransmitData) : RemoteTransmitData :=
  if mask ≠ 0 then
    send_data_msb onemark onespace zeromark zerospace data (mask >>> 1)
      (if data &&& mask ≠ 0 then send_bit d onemark onespace
       else send_bit d zeromark zerospace)
  else d
termination_by mask
decreasing_by
  rename_i h
  rw [Nat.shiftRight_eq_div_pow]
  exact Nat.div_lt_self (Nat.pos_of_ne_zero h) (by decide)

/-- The loop of lines 191-198, `for (bit = 0; bit < nbits; bit++, data >>= 1)`, entered
with the current values of `bit` and `data`. -/
def send_data_lsb (onemark onespace zeromark zerospace : Nat) (data bit nbits : Nat)
    (d : RemoteTransmitData) : RemoteTransmitData :=
  if bit < nbits then
    send_data_lsb onemark onespace zeromark zerospace (data >>> 1) (bit + 1) nbits
      (if data &&& 1 ≠ 0 then send_bit d onemark onespace
       else send_bit d zeromark zerospace)
  else d
termination_by nbits - bit

/-- The function `CoolixClimate::send_data_`. -/
def send_data_ (transmit_data : RemoteTransmitData)
    (onemark onespace zeromark zerospace : Nat) (data : Nat) (nbits : Nat)
    (msb_first : Bool) : RemoteTransmitData :=
  if nbits = 0 then transmit_data
  else if msb_first then
    let (nbits, transmit_data) := send_data_pad zeromark zerospace nbits transmit_data
    send_data_msb onemark onespace zeromark zerospace data
      ((1 <<< (nbits - 1)) % 2 ^ 64) transmit_data
  else
    send_data_lsb onemark onespace zeromark zerospace data 0 nbits transmit_data

/-! ## `CoolixClimate::transmit_state_`, lines 124-153: the pulse train -/

/-- The loop of lines 137-146, `for (i = 8; i <= COOLIX_BITS; i += 8)`, entered with the
current value of `i`. -/
def send_segments (remote_state : Nat) (i : Nat) (data : RemoteTransmitData) :
    RemoteTransmitData :=
  if i ≤ COOLIX_BITS then
    let segment := toUInt8 ((remote_state >>> (COOLIX_BITS - i)) &&& 0xFF)
    let data := send_data_ data COOLIX_BIT_MARK COOLIX_ONE_SPACE COOLIX_BIT_MARK
      COOLIX_ZERO_SPACE segment 8 true
    let data := send_data_ data COOLIX_BIT_MARK COOLIX_ONE_SPACE COOLIX_BIT_MARK
      COOLIX_ZERO_SPACE (segment ^^^ 0xFF) 8 true
    send_segments remote_state (i + 8) data
  else data
termination_by COOLIX_BITS + 1 - i

/-- The loop of lines 129-151, `for (r = 0; r <= repeat; r++)`, entered with the current
value of `r`. -/
def send_frames (remote_state : Nat) (r rep : Nat) (data : RemoteTransmitData) :
    RemoteTransmitData :=
  if r ≤ rep then
    let data := data.mark COOLIX_HEADER_MARK
    let data := data.space COOLIX_HEADER_SPACE
    let data := send_segments remote_state 8 data
    let data := data.mark COOLIX_BIT_MARK
    let data := data.space COOLIX_MIN_GAP
    send_frames remote_state (r + 1) rep data
  else data
termination_by rep + 1 - r

/-- Lines 124-151 for a given value of `remote_state`: the buffer handed to
`transmit.perform()`. -/
def transmit_word (remote_state : Nat) : RemoteTransmitData :=
  let data := RemoteTransmitData.fresh
  let data := data.set_carrier_frequency 38000
  let rep := 1
  send_frames remote_state 0 rep data

/-! ## The controller -/

/-- The fields of `CoolixClimate` the three functions read and write. In the source
`target_temperature` and `current_temperature` are `float`s: the embedding keeps the
whole number of degrees of the target, which is what the cast `(uint8_t)` of lines
116-117 reads from it, and writes `none` for a current temperature of `NAN`. -/
structure CoolixClimate where
  mode : ClimateMode
  target_temperature : Nat
  current_temperature : Option Nat
  supports_cool_ : Bool
  supports_heat_ : Bool
  deriving DecidableEq, Repr

/-- Modelled from the spec: `climate::ClimateCall` is declared in the climate component,
whose header is not part of the sources. Section 4.5 of the spec: a request may set a
new mode and/or a new target temperature, and either may be absent. -/
structure ClimateCall where
  mode : Option ClimateMode
  target_temperature : Option Nat
  deriving DecidableEq, Repr

def ClimateCall.get_mode (call : ClimateCall) : Option ClimateMode := call.mode

def ClimateCall.get_target_temperature (call : ClimateCall) : Option Nat :=
  call.target_temperature

/-- The function `CoolixClimate::transmit_state_`: the buffer handed to
`transmit.perform()`, `none` when line 119 reads outside `COOLIX_TEMP_MAP`. -/
def transmit_state_ (self : CoolixClimate) : Option RemoteTransmitData :=
  match remote_state self.mode self.target_temperature with
  | some remote_state => some (transmit_word remote_state)
  | none => none

/-- Lines 86-91 of `CoolixClimate::control`: the assignments to the controller. -/
def control_update (self : CoolixClimate) (call : ClimateCall) : CoolixClimate :=
  let self := match call.get_mode with
    | some mode => { self with mode := mode }
    | none => self
  let self := match call.get_target_temperature with
    | some t => { self with target_temperature := t }
    | none => self
  { self with current_temperature := none }

/-- The function `CoolixClimate::control`: the controller after the call and the pulse
train it transmitted. `publish_state` notifies observers and changes neither. -/
def control (self : CoolixClimate) (call : ClimateCall) :
    Option (CoolixClimate × RemoteTransmitData) :=
  let self := control_update self call
  match transmit_state_ self with
  | some train => some (self, train)
  | none => none

/-! ## Vocabulary of the statements -/

/-- The buffer `d` after the mark/space calls of the pairs `ps`. -/
def append_pairs (d : RemoteTransmitData) (ps : List (Nat × Nat)) : RemoteTransmitData :=
  { d with data := d.data ++ ofPairs ps }

/-- The timing pair of one bit. -/
def bit_pair (onemark onespace zeromark zerospace : Nat) (b : Bool) : Nat × Nat :=
  if b then (onemark, onespace) else (zeromark, zerospace)

/-- The pairs of the `nbits` low bits of `data`, bit `nbits - 1` first. -/
def msb_pairs (onemark onespace zeromark zerospace data nbits : Nat) : List (Nat × Nat) :=
  (List.range nbits).map fun k =>
    bit_pair onemark onespace zeromark zerospace (data.testBit (nbits - 1 - k))

/-- The three bytes of a 24-bit command word, most significant byte first (spec,
section 4.4, payload). -/
def spec_bytes (W : Nat) : List Nat := [W / 2 ^ 16 % 256, W / 2 ^ 8 % 256, W % 256]

/-- The 8 pairs of a byte, most significant bit first, with the timings of the protocol:
mark 560, space 1680 for a 1 bit and 560 for a 0 bit (spec, sections 4.4 and 6). -/
def spec_byte_pairs (b : Nat) : List (Nat × Nat) :=
  (List.range 8).map fun k => if b.testBit (7 - k) then (560, 1680) else (560, 560)

/-- One frame as the spec words it (section 4.4): the header pair, every byte followed
by its complement, the footer pair. -/
def spec_frame (W : Nat) : List (Nat × Nat) :=
  [(4480, 4480)]
    ++ (spec_bytes W).flatMap (fun b => spec_byte_pairs b ++ spec_byte_pairs (b ^^^ 0xFF))
    ++ [(560, 5040)]

/-- The mode field codes the composer writes (spec, section 4.3): `00` for COOL and `11`
for HEAT; the other modes are not composed from a mode code. -/
def spec_mode_code : ClimateMode → Option Nat
  | CLIMATE_MODE_COOL => some 0b00
  | CLIMATE_MODE_HEAT => some 0b11
  | _ => none

/-- The pairs of the `nbits` low bits of `data`, bit 0 first. -/
def lsb_pairs (onemark onespace zeromark zerospace data nbits : Nat) : List (Nat × Nat) :=
  (List.range nbits).map fun k =>
    bit_pair onemark onespace zeromark zerospace (data.testBit k)

/-- Two values differ in exactly one bit position (below bit 32). -/
def differ_in_one_bit (a b : Nat) : Prop := ∃ k, k < 32 ∧ a ^^^ b = 2 ^ k

instance (a b : Nat) : Decidable (differ_in_one_bit a b) := by
  unfold differ_in_one_bit
  infer_instance

/-- The duration of one buffer entry, in microseconds. -/
def Pulse.us : Pulse → Nat
  | Pulse.mark us => us
  | Pulse.space us => us

/-- The sum of all mark and space durations of a buffer, in microseconds. -/
def total_duration (d : RemoteTransmitData) : Nat := (d.data.map Pulse.us).sum

/-- The sum of the mark and space durations of a list of pairs, in microseconds. -/
def pairs_us (ps : List (Nat × Nat)) : Nat := (ps.map fun p => p.1 + p.2).sum

/-- The buffer read back as (mark, space) pairs. -/
def toPairs : List Pulse → List (Nat × Nat)
  | Pulse.mark m :: Pulse.space s :: rest => (m, s) :: toPairs rest
  | _ => []

/-- The receiver's reading of one payload pair: a space of 1680 us is bit 1, a space of
560 us is bit 0. -/
def decode_bit (p : Nat × Nat) : Nat := if p.2 = 1680 then 1 else 0

/-- The value of a list of bits, most significant first. -/
def bits_value (bits : List Nat) : Nat := bits.foldl (fun acc b => 2 * acc + b) 0

/-- The word read from one frame of 50 pairs: of the 48 payload pairs that follow the
header pair, those at positions 0-7, 16-23 and 32-39, most significant first. -/
def decode_frame (frame : List (Nat × Nat)) : Nat :=
  let payload := (frame.drop 1).take 48
  bits_value
    ((payload.take 8 ++ (payload.drop 16).take 8 ++ (payload.drop 32).take 8).map decode_bit)

/-! ## Lemmas on the buffer -/

theorem ofPairs_append (a b : List (Nat × Nat)) :
    ofPairs (a ++ b) = ofPairs a ++ ofPairs b := by
  induction a with
  | nil => rfl
  | cons p a ih =>
    obtain ⟨m, s⟩ := p
    simp [ofPairs, ih]

theorem append_pairs_nil (d : RemoteTransmitData) : append_pairs d [] = d := by
  simp [append_pairs, ofPairs]

theorem append_pairs_append (d : RemoteTransmitData) (a b : List (Nat × Nat)) :
    append_pairs (append_pairs d a) b = append_pairs d (a ++ b) := by
  simp [append_pairs, ofPairs_append]

theorem send_bit_eq (d : RemoteTransmitData) (m s : Nat) :
    send_bit d m s = append_pairs d [(m, s)] := by
  simp [send_bit, append_pairs, ofPairs, RemoteTransmitData.mark, RemoteTransmitData.space]

/-! ## Lemmas on `send_data_` -/

theorem and_two_pow_ne_zero (data j : Nat) :
    data &&& 2 ^ j ≠ 0 ↔ data.testBit j = true := by
  constructor
  · intro h
    by_contra hb
    apply h
    apply Nat.eq_of_testBit_eq
    intro i
    rw [Nat.testBit_and, Nat.testBit_two_pow, Nat.zero_testBit]
    by_cases hij : j = i
    · subst hij
      simp [hb]
    · simp [hij]
  · intro hb h
    have := congrArg (fun x => Nat.testBit x j) h
    simp [Nat.testBit_two_pow_self, hb] at this

theorem send_bit_cond (d : RemoteTransmitData) (om os zm zs data j : Nat) :
    (if data &&& 2 ^ j ≠ 0 then send_bit d om os else send_bit d zm zs)
      = append_pairs d [bit_pair om os zm zs (data.testBit j)] := by
  by_cases hb : data.testBit j = true
  · rw [if_pos ((and_two_pow_ne_zero data j).2 hb)]
    simp [bit_pair, hb, send_bit_eq]
  · rw [if_neg (fun h => hb ((and_two_pow_ne_zero data j).1 h))]
    simp [bit_pair, hb, send_bit_eq]

theorem msb_pairs_succ (om os zm zs data n : Nat) :
    msb_pairs om os zm zs data (n + 1)
      = bit_pair om os zm zs (data.testBit n) :: msb_pairs om os zm zs data n := by
  simp only [msb_pairs, List.range_succ_eq_map, List.map_cons, List.map_map]
  congr 1
  apply List.map_congr_left
  intro k hk
  have : k < n := List.mem_range.1 hk
  simp only [Function.comp, Nat.succ_eq_add_one]
  congr 2
  omega

theorem send_data_msb_zero (om os zm zs data : Nat) (d : RemoteTransmitData) :
    send_data_msb om os zm zs data 0 d = d := by
  rw [send_data_msb]
  simp

theorem send_data_msb_two_pow (om os zm zs data : Nat) :
    ∀ (j : Nat) (d : RemoteTransmitData),
      send_data_msb om os zm zs data (2 ^ j) d
        = append_pairs d (msb_pairs om os zm zs data (j + 1)) := by
  intro j
  induction j with
  | zero =>
    intro d
    rw [send_data_msb]
    have h1 : (2 : Nat) ^ 0 >>> 1 = 0 := by decide
    rw [if_pos (by decide), h1, send_data_msb_zero, send_bit_cond]
    simp [msb_pairs, List.range_succ]
  | succ j ih =>
    intro d
    rw [send_data_msb]
    have h1 : (2 : Nat) ^ (j + 1) >>> 1 = 2 ^ j := by
      rw [Nat.shiftRight_eq_div_pow, Nat.pow_succ]
      simp
    have h2 : (2 : Nat) ^ (j + 1) ≠ 0 := by positivity
    rw [if_pos h2, h1, send_bit_cond, ih, append_pairs_append, msb_pairs_succ _ _ _ _ _ (j + 1)]
    rfl

theorem send_data_pad_eq (zm zs : Nat) :
    ∀ (k n : Nat) (d : RemoteTransmitData), n ≤ 64 + k →
      send_data_pad zm zs n d
        = (min n 64, append_pairs d (List.replicate (n - 64) (zm, zs))) := by
  intro k
  induction k with
  | zero =>
    intro n d hn
    rw [send_data_pad, if_neg (by omega)]
    have h0 : n - 64 = 0 := by omega
    rw [h0, List.replicate_zero, append_pairs_nil, Nat.min_eq_left (by omega)]
  | succ k ih =>
    intro n d hn
    by_cases hgt : n > 64
    · rw [send_data_pad, if_pos (by omega), ih (n - 1) _ (by omega), send_bit_eq,
        append_pairs_append]
      have h1 : n - 64 = (n - 1 - 64) + 1 := by omega
      rw [h1, List.replicate_succ, Nat.min_eq_right (by omega), Nat.min_eq_right (by omega)]
      rfl
    · exact ih n d (by omega)

theorem msb_pairs_length (om os zm zs data n : Nat) :
    (msb_pairs om os zm zs data n).length = n := by
  simp [msb_pairs]

theorem msb_pairs_pad (om os zm zs data w n : Nat) (hdata : data < 2 ^ w) (hw : w ≤ n) :
    msb_pairs om os zm zs data n
      = List.replicate (n - w) (zm, zs) ++ msb_pairs om os zm zs data w := by
  apply List.ext_getElem
  · simp [msb_pairs]
    omega
  · intro i h1 h2
    by_cases hi : i < n - w
    · rw [List.getElem_append_left (by simpa using hi)]
      have hlt : data < 2 ^ (n - 1 - i) :=
        Nat.lt_of_lt_of_le hdata (Nat.pow_le_pow_right (by decide) (by omega))
      simp [msb_pairs, bit_pair, Nat.testBit_lt_two_pow hlt]
    · rw [List.getElem_append_right (by simpa using hi)]
      have hidx : n - 1 - i = w - 1 - (i - (n - w)) := by
        simp [msb_pairs] at h1
        omega
      simp [msb_pairs, hidx]

theorem send_data_msb_first (d : RemoteTransmitData) (om os zm zs data nbits : Nat)
    (hdata : data < 2 ^ 64) :
    send_data_ d om os zm zs data nbits true
      = append_pairs d (msb_pairs om os zm zs data nbits) := by
  by_cases h0 : nbits = 0
  · subst h0
    simp [send_data_, msb_pairs, append_pairs_nil]
  · simp only [send_data_, if_neg h0, if_true]
    rw [send_data_pad_eq zm zs nbits nbits d (by omega)]
    simp only []
    by_cases hle : nbits ≤ 64
    · have hmask : (1 <<< (min nbits 64 - 1)) % 2 ^ 64 = 2 ^ (nbits - 1) := by
        rw [Nat.min_eq_left hle, Nat.one_shiftLeft]
        exact Nat.mod_eq_of_lt (Nat.pow_lt_pow_right (by decide) (by omega))
      have hpad : nbits - 64 = 0 := by omega
      rw [hmask, send_data_msb_two_pow, hpad, List.replicate_zero, append_pairs_nil]
      have : nbits - 1 + 1 = nbits := by omega
      rw [this]
    · have hmask : (1 <<< (min nbits 64 - 1)) % 2 ^ 64 = 2 ^ 63 := by
        rw [Nat.min_eq_right (by omega)]
        decide
      rw [hmask, send_data_msb_two_pow, append_pairs_append,
        msb_pairs_pad om os zm zs data 64 nbits hdata (by omega)]

theorem send_data_msb_first_le (d : RemoteTransmitData) (om os zm zs data nbits : Nat)
    (hle : nbits ≤ 64) :
    send_data_ d om os zm zs data nbits true
      = append_pairs d (msb_pairs om os zm zs data nbits) := by
  by_cases h0 : nbits = 0
  · subst h0
    simp [send_data_, msb_pairs, append_pairs_nil]
  · simp only [send_data_, if_neg h0, if_true]
    rw [send_data_pad_eq zm zs nbits nbits d (by omega)]
    simp only []
    have hmask : (1 <<< (min nbits 64 - 1)) % 2 ^ 64 = 2 ^ (nbits - 1) := by
      rw [Nat.min_eq_left hle, Nat.one_shiftLeft]
      exact Nat.mod_eq_of_lt (Nat.pow_lt_pow_right (by decide) (by omega))
    have hpad : nbits - 64 = 0 := by omega
    rw [hmask, send_data_msb_two_pow, hpad, List.replicate_zero, append_pairs_nil]
    have : nbits - 1 + 1 = nbits := by omega
    rw [this]

/-! ## Lemmas on the pulse train -/

theorem msb_pairs_byte (b : Nat) :
    msb_pairs COOLIX_BIT_MARK COOLIX_ONE_SPACE COOLIX_BIT_MARK COOLIX_ZERO_SPACE b 8
      = spec_byte_pairs b := by
  rfl

theorem segment_eq (W i : Nat) :
    toUInt8 ((W >>> i) &&& 0xFF) = W / 2 ^ i % 256 := by
  have h : (0xFF : Nat) = 2 ^ 8 - 1 := by decide
  rw [h, Nat.and_pow_two_sub_one_eq_mod, Nat.shiftRight_eq_div_pow, toUInt8]
  simp

theorem send_segments_eq (W : Nat) (d : RemoteTransmitData) :
    send_segments W 8 d
      = append_pairs d
          ((spec_bytes W).flatMap
            (fun b => spec_byte_pairs b ++ spec_byte_pairs (b ^^^ 0xFF))) := by
  rw [send_segments, if_pos (by decide)]
  simp only []
  rw [send_segments, if_pos (by decide)]
  simp only []
  rw [send_segments, if_pos (by decide)]
  simp only []
  rw [send_segments, if_neg (by decide)]
  simp only [send_data_msb_first_le _ _ _ _ _ _ 8 (by decide), append_pairs_append,
    msb_pairs_byte, segment_eq]
  simp [spec_bytes, COOLIX_BITS]

theorem transmit_word_eq (W : Nat) :
    transmit_word W
      = { carrier_frequency := 38000, data := ofPairs (spec_frame W ++ spec_frame W) } := by
  have hmark : ∀ (d : RemoteTransmitData) (m s : Nat),
      (d.mark m).space s = append_pairs d [(m, s)] := fun d m s => send_bit_eq d m s
  simp only [transmit_word]
  rw [send_frames, if_pos (by decide)]
  simp only []
  rw [send_frames, if_pos (by decide)]
  simp only []
  rw [send_frames, if_neg (by decide)]
  simp only [hmark, send_segments_eq, append_pairs_append]
  simp [append_pairs, RemoteTransmitData.set_carrier_frequency, RemoteTransmitData.fresh,
    spec_frame, COOLIX_HEADER_MARK, COOLIX_HEADER_SPACE, COOLIX_BIT_MARK, COOLIX_MIN_GAP,
    COOLIX_HEADER_MARK_TICKS, COOLIX_HEADER_SPACETicks, COOLIX_BIT_MARKTicks,
    COOLIX_MIN_GAP_TICKS, COOLIX_ZERO_SPACETicks, COLLIX_TICK]

theorem spec_frame_length (W : Nat) : (spec_frame W).length = 50 := by
  simp [spec_frame, spec_bytes, spec_byte_pairs]

theorem remote_state_defined (mode : ClimateMode) (T : Nat) (hT : T ≤ 30) :
    ∃ W, remote_state mode T = some W := by
  interval_cases T <;> cases mode <;> exact ⟨_, rfl⟩

/-! ## The command word -/

/-- C1: for every target temperature T with 17 ≤ T ≤ 30 and for mode COOL (mode code 00)
or HEAT (mode code 11), the word `transmit_state_` composes is the base template
0xB2BFC8 with bits 2-3 and bits 4-7 cleared, or-ed with the mode code shifted left by 2
and with the entry of `COOLIX_TEMP_MAP` at index T - 17 shifted left by 4. Its
temperature field (bits 4-7) is that table entry, its mode field (bits 2-3) is the mode
code, and its remaining bits (bits 8 and up, bits 0-1) are those of 0xB2BFC8. -/
theorem remote_state_cool_heat (mode : ClimateMode) (mc T : Nat)
    (hmode : spec_mode_code mode = some mc) (h17 : 17 ≤ T) (h30 : T ≤ 30) :
    ∃ code W, COOLIX_TEMP_MAP[T - 17]? = some code ∧
      remote_state mode T = some W ∧
      W = ((0xB2BFC8 &&& not32 0xC) &&& not32 0xF0) ||| (mc <<< 2) ||| (code <<< 4) ∧
      W / 16 % 16 = code ∧ W / 4 % 4 = mc ∧
      W / 256 = 0xB2BFC8 / 256 ∧ W % 4 = 0xB2BFC8 % 4 := by
  cases mode <;> simp only [spec_mode_code, Option.some.injEq, reduceCtorEq] at hmode
  all_goals
    subst hmode
    interval_cases T <;> exact ⟨_, _, rfl, rfl, by decide⟩

/-- Witness of C1: mode COOL with T = 22 composes 0xB2BF70, mode bits 00 and temperature
nibble 0111. -/
theorem remote_state_cool_heat_witness :
    spec_mode_code CLIMATE_MODE_COOL = some 0b00 ∧ 17 ≤ 22 ∧ 22 ≤ 30 ∧
      remote_state CLIMATE_MODE_COOL 22 = some 0xB2BF70 ∧
      0xB2BF70 / 4 % 4 = 0b00 ∧ 0xB2BF70 / 16 % 16 = 0b0111 := by
  refine ⟨rfl, by decide, by decide, ?_, by decide, by decide⟩
  obtain ⟨code, W, hcode, hW, hval, -⟩ :=
    remote_state_cool_heat CLIMATE_MODE_COOL 0b00 22 rfl (by decide) (by decide)
  have h5 : COOLIX_TEMP_MAP[22 - 17]? = some 0b0111 := by decide
  have hc : code = 0b0111 := Option.some.inj (hcode.symm.trans h5)
  subst hc
  rw [hW, hval]
  decide

/-- C2: for mode OFF and every target temperature, inside or outside [17, 30], the word
`transmit_state_` composes is exactly 0xB27BE0; the temperature table is not read. -/
theorem remote_state_off (T : Nat) : remote_state CLIMATE_MODE_OFF T = some 0xB27BE0 := by
  rfl

/-- C3: for mode AUTO and every target temperature T with 17 ≤ T ≤ 30, the word
`transmit_state_` composes is the AUTO base template 0xB21FC8 with bits 4-7 cleared,
or-ed with the entry of `COOLIX_TEMP_MAP` at index T - 17 shifted left by 4: only the
temperature field of the template is overwritten. -/
theorem remote_state_auto (T : Nat) (h17 : 17 ≤ T) (h30 : T ≤ 30) :
    ∃ code W, COOLIX_TEMP_MAP[T - 17]? = some code ∧
      remote_state CLIMATE_MODE_AUTO T = some W ∧
      W = (0xB21FC8 &&& not32 0xF0) ||| (code <<< 4) ∧
      W / 16 % 16 = code ∧ W / 256 = 0xB21FC8 / 256 ∧ W % 16 = 0xB21FC8 % 16 := by
  interval_cases T <;> exact ⟨_, _, rfl, rfl, by decide⟩

/-- Witness of C3: mode AUTO with T = 25 composes 0xB21FC8, whose low byte is 0xC8 and
whose upper 16 bits are those of the AUTO base. -/
theorem remote_state_auto_witness :
    17 ≤ 25 ∧ 25 ≤ 30 ∧ remote_state CLIMATE_MODE_AUTO 25 = some 0xB21FC8 ∧
      0xB21FC8 % 256 = 0xC8 ∧ 0xB21FC8 / 256 = COOLIX_DEFAULT_STATE_AUTO_FAN / 256 := by
  refine ⟨by decide, by decide, ?_, by decide, by decide⟩
  obtain ⟨code, W, hcode, hW, hval, -⟩ := remote_state_auto 25 (by decide) (by decide)
  have h8 : COOLIX_TEMP_MAP[25 - 17]? = some 0b1100 := by decide
  have hc : code = 0b1100 := Option.some.inj (hcode.symm.trans h8)
  subst hc
  rw [hW, hval]
  decide

/-- C4, the code at T = 31: line 117 leaves `temp` at 31, the index 31 - 17 = 14 is one
past the last entry of the 14-entry table, and no word is defined, whereas T = 30
composes 0xB2BFB0; below the range the clamp does work, T = 0 composes the word of
T = 17. -/
theorem remote_state_above_range :
    clamped_temp 31 = 31 ∧ COOLIX_TEMP_MAP.length = 14 ∧
      COOLIX_TEMP_MAP[clamped_temp 31 - COOLIX_TEMP_MIN]? = none ∧
      remote_state CLIMATE_MODE_COOL 31 = none ∧
      remote_state CLIMATE_MODE_COOL 30 = some 0xB2BFB0 ∧
      remote_state CLIMATE_MODE_COOL 0 = remote_state CLIMATE_MODE_COOL 17 := by
  decide

/-! ## The bitstream timing encoder -/

/-- C5: `send_data_` called with nbits = 0 leaves the buffer as it was, for every data
value, every choice of the four timings and both bit orders. -/
theorem send_data_zero_bits (d : RemoteTransmitData) (onemark onespace zeromark zerospace
    data : Nat) (msb_first : Bool) :
    send_data_ d onemark onespace zeromark zerospace data 0 msb_first = d := by
  simp [send_data_]

/-- C6: for every data value and every nbits ≤ 64 (nbits ≥ 1 in the claim; for nbits = 0
the list below is empty), `send_data_` in most-significant-bit-first order appends
exactly nbits (mark, space) pairs to the buffer, and the k-th of them, k = 0 .. nbits - 1,
is (onemark, onespace) when bit nbits - 1 - k of data is 1 and (zeromark, zerospace)
otherwise. -/
theorem send_data_msb_order (d : RemoteTransmitData) (onemark onespace zeromark zerospace
    data nbits : Nat) (h64 : nbits ≤ 64) :
    send_data_ d onemark onespace zeromark zerospace data nbits true
      = { d with data := d.data ++ ofPairs ((List.range nbits).map fun k =>
            if data.testBit (nbits - 1 - k) then (onemark, onespace)
            else (zeromark, zerospace)) } := by
  rw [send_data_msb_first_le d onemark onespace zeromark zerospace data nbits h64]
  rfl

/-- Witness of C6: data = 0b10110000 over 8 bits is sent as the bits 1,0,1,1,0,0,0,0. -/
theorem send_data_msb_order_witness :
    8 ≤ 64 ∧
      send_data_ RemoteTransmitData.fresh 560 1680 560 560 0b10110000 8 true
        = { carrier_frequency := 0,
            data := ofPairs [(560, 1680), (560, 560), (560, 1680), (560, 1680),
                             (560, 560), (560, 560), (560, 560), (560, 560)] } :=
  ⟨by decide,
   (send_data_msb_order RemoteTransmitData.fresh 560 1680 560 560 0b10110000 8
      (by decide)).trans (by decide)⟩

/-- C7: for every 64-bit data value, every width w with data < 2^w and every bit count
n ≥ w (n > 64 included), `send_data_` in most-significant-bit-first order appends n - w
pairs (zeromark, zerospace) of padding followed by the w pairs `ps` that it appends, to
any buffer, for the same data with nbits = w; the number of appended pairs is n. The
function is total, so both loops terminate. -/
theorem send_data_msb_padding (d : RemoteTransmitData) (onemark onespace zeromark zerospace
    data w n : Nat) (hdata : data < 2 ^ 64) (hw : data < 2 ^ w) (hn : w ≤ n) :
    ∃ ps : List (Nat × Nat), ps.length = w ∧
      (∀ d0 : RemoteTransmitData,
        send_data_ d0 onemark onespace zeromark zerospace data w true
          = { d0 with data := d0.data ++ ofPairs ps }) ∧
      send_data_ d onemark onespace zeromark zerospace data n true
        = { d with data := d.data
              ++ ofPairs (List.replicate (n - w) (zeromark, zerospace) ++ ps) } ∧
      (List.replicate (n - w) (zeromark, zerospace) ++ ps).length = n := by
  refine ⟨msb_pairs onemark onespace zeromark zerospace data w, msb_pairs_length _ _ _ _ _ _,
    fun d0 => send_data_msb_first d0 _ _ _ _ data w hdata, ?_, ?_⟩
  · rw [send_data_msb_first d _ _ _ _ data n hdata,
      msb_pairs_pad onemark onespace zeromark zerospace data w n hw hn]
    rfl
  · rw [List.length_append, List.length_replicate, msb_pairs_length]
    omega

/-- Witness of C7: data = 5 = 0b101 of width 3 sent over 70 bits, more than the 64 bits
of the data type. -/
theorem send_data_msb_padding_witness :
    5 < 2 ^ 64 ∧ 5 < 2 ^ 3 ∧ 3 ≤ 70 ∧
    ∃ ps : List (Nat × Nat), ps.length = 3 ∧
      (∀ d0 : RemoteTransmitData,
        send_data_ d0 560 1680 560 560 5 3 true
          = { d0 with data := d0.data ++ ofPairs ps }) ∧
      send_data_ RemoteTransmitData.fresh 560 1680 560 560 5 70 true
        = { carrier_frequency := 0,
            data := ofPairs (List.replicate (70 - 3) (560, 560) ++ ps) } ∧
      (List.replicate (70 - 3) (560, 560) ++ ps).length = 70 :=
  ⟨by decide, by decide, by decide,
   send_data_msb_padding RemoteTransmitData.fresh 560 1680 560 560 5 3 70
     (by decide) (by decide) (by decide)⟩

/-! ## The pulse train -/

/-- C8: for every command word W that `transmit_state_` composes, the buffer it hands to
the transmitter holds two identical frames back to back, at carrier 38000 Hz; a frame is
the header pair (4480, 4480), then for each of the three bytes b of W, most significant
byte first, the 8 pairs of b (most significant bit first, mark 560, space 1680 for a 1
bit and 560 for a 0 bit) followed by the 8 pairs of b XOR 0xFF, then the footer pair
(560, 5040). -/
theorem transmit_state_two_frames (self : CoolixClimate) (W : Nat)
    (hW : remote_state self.mode self.target_temperature = some W) :
    transmit_state_ self
      = some { carrier_frequency := 38000,
               data := ofPairs (spec_frame W ++ spec_frame W) } := by
  simp only [transmit_state_, hW, transmit_word_eq]

/-- Witness of C8: mode COOL with T = 22, whose word is 0xB2BF70. -/
theorem transmit_state_two_frames_witness :
    remote_state CLIMATE_MODE_COOL 22 = some 0xB2BF70 ∧
    transmit_state_ { mode := CLIMATE_MODE_COOL, target_temperature := 22,
                      current_temperature := none, supports_cool_ := true,
                      supports_heat_ := true }
      = some { carrier_frequency := 38000,
               data := ofPairs (spec_frame 0xB2BF70 ++ spec_frame 0xB2BF70) } :=
  ⟨by decide, transmit_state_two_frames _ 0xB2BF70 (by decide)⟩

/-- C9: for every mode and every target temperature T ≤ 30, one call of
`transmit_state_` hands over a pulse train of exactly 100 mark/space pairs, the first of
which is (4480, 4480) and the last (560, 5040). -/
theorem transmit_state_hundred_pairs (self : CoolixClimate)
    (hT : self.target_temperature ≤ 30) :
    ∃ (train : RemoteTransmitData) (pairs : List (Nat × Nat)),
      transmit_state_ self = some train ∧ train.data = ofPairs pairs ∧
      pairs.length = 100 ∧ pairs.head? = some (4480, 4480) ∧
      pairs.getLast? = some (560, 5040) := by
  obtain ⟨W, hW⟩ := remote_state_defined self.mode self.target_temperature hT
  refine ⟨{ carrier_frequency := 38000, data := ofPairs (spec_frame W ++ spec_frame W) },
    spec_frame W ++ spec_frame W, ?_, rfl, ?_, ?_, ?_⟩
  · simp only [transmit_state_, hW, transmit_word_eq]
  · simp [spec_frame_length]
  · simp [spec_frame]
  · have hsplit : spec_frame W ++ spec_frame W
        = (spec_frame W ++ ([(4480, 4480)] ++ (spec_bytes W).flatMap
            (fun b => spec_byte_pairs b ++ spec_byte_pairs (b ^^^ 0xFF)))) ++ [(560, 5040)] := by
      simp [spec_frame]
    rw [hsplit, List.getLast?_concat]

/-- Witness of C9: mode COOL with T = 22. -/
theorem transmit_state_hundred_pairs_witness :
    22 ≤ 30 ∧
    ∃ (train : RemoteTransmitData) (pairs : List (Nat × Nat)),
      transmit_state_ { mode := CLIMATE_MODE_COOL, target_temperature := 22,
                        current_temperature := none, supports_cool_ := true,
                        supports_heat_ := true } = some train ∧
      train.data = ofPairs pairs ∧ pairs.length = 100 ∧
      pairs.head? = some (4480, 4480) ∧ pairs.getLast? = some (560, 5040) :=
  ⟨by decide,
   transmit_state_hundred_pairs
     { mode := CLIMATE_MODE_COOL, target_temperature := 22, current_temperature := none,
       supports_cool_ := true, supports_heat_ := true } (by decide)⟩

/-! ## The controller -/

/-- C10: for every prior controller state s and every request r that carries both a mode
m and a target temperature t ≤ 30, `control` applied to r from s and applied to r again
from the state the first call left behind transmit the same pulse train, and that train
is the one of the word composed from m and t alone, whatever s was. -/
theorem control_twice_same_train (s : CoolixClimate) (r : ClimateCall) (m : ClimateMode)
    (t : Nat) (hm : r.mode = some m) (ht : r.target_temperature = some t) (hle : t ≤ 30) :
    ∃ (W : Nat) (s1 s2 : CoolixClimate),
      remote_state m t = some W ∧
      control s r = some (s1, transmit_word W) ∧
      control s1 r = some (s2, transmit_word W) := by
  obtain ⟨W, hW⟩ := remote_state_defined m t hle
  refine ⟨W, control_update s r, control_update (control_update s r) r, hW, ?_, ?_⟩
  · simp [control, control_update, transmit_state_, ClimateCall.get_mode,
      ClimateCall.get_target_temperature, hm, ht, hW]
  · simp [control, control_update, transmit_state_, ClimateCall.get_mode,
      ClimateCall.get_target_temperature, hm, ht, hW]

/-- Witness of C10: the request (COOL, 22) applied twice, starting from a controller that
is in mode HEAT at 28 degrees. -/
theorem control_twice_same_train_witness :
    22 ≤ 30 ∧
    ∃ (W : Nat) (s1 s2 : CoolixClimate),
      remote_state CLIMATE_MODE_COOL 22 = some W ∧
      control { mode := CLIMATE_MODE_HEAT, target_temperature := 28,
                current_temperature := some 21, supports_cool_ := true,
                supports_heat_ := true }
          { mode := some CLIMATE_MODE_COOL, target_temperature := some 22 }
        = some (s1, transmit_word W) ∧
      control s1 { mode := some CLIMATE_MODE_COOL, target_temperature := some 22 }
        = some (s2, transmit_word W) :=
  ⟨by decide,
   control_twice_same_train _ { mode := some CLIMATE_MODE_COOL, target_temperature := some 22 }
     CLIMATE_MODE_COOL 22 rfl rfl (by decide)⟩

/-! ## The temperature table and the clamp -/

/-- C11: the temperature code table has exactly 14 entries (`kCoolixTempRange`), each a
4-bit code below 16, equal in order to 0000, 0001, 0011, 0010, 0110, 0111, 0101, 0100,
1100, 1101, 1001, 1000, 1010, 1011, and no two indices of the table hold the same
code. -/
theorem temp_map_injective :
    COOLIX_TEMP_MAP.length = 14 ∧ kCoolixTempRange = 14 ∧
      (∀ i : Fin 14, ∃ c, COOLIX_TEMP_MAP[i.val]? = some c ∧ c < 16) ∧
      COOLIX_TEMP_MAP
        = [0b0000, 0b0001, 0b0011, 0b0010, 0b0110, 0b0111, 0b0101, 0b0100, 0b1100,
           0b1101, 0b1001, 0b1000, 0b1010, 0b1011] ∧
      (∀ i j : Fin 14, i ≠ j → COOLIX_TEMP_MAP[i.val]? ≠ COOLIX_TEMP_MAP[j.val]?) ∧
      COOLIX_TEMP_MAP.Nodup := by
  refine ⟨rfl, rfl, ?_, rfl, by decide, by decide⟩
  intro i
  fin_cases i <;> exact ⟨_, rfl, by decide⟩

/-- C12: `control` applies partial updates. The controller after lines 86-91 has the
mode of the call if the call carries one and its former mode otherwise, the target
temperature of the call if the call carries one and its former target temperature
otherwise, unchanged capability flags, and an unknown current temperature; this is the
controller `control` leaves behind with the transmitted train, and it does leave one
behind whenever the mode is OFF or the target temperature is at most 30. -/
theorem control_partial_update (s : CoolixClimate) (call : ClimateCall) :
    (control_update s call).mode = call.mode.getD s.mode ∧
      (control_update s call).target_temperature
        = call.target_temperature.getD s.target_temperature ∧
      (control_update s call).supports_cool_ = s.supports_cool_ ∧
      (control_update s call).supports_heat_ = s.supports_heat_ ∧
      (control_update s call).current_temperature = none ∧
      control s call
        = (transmit_state_ (control_update s call)).map
            (fun train => (control_update s call, train)) ∧
      ((control_update s call).mode = CLIMATE_MODE_OFF
          ∨ (control_update s call).target_temperature ≤ 30 →
        ∃ train, control s call = some (control_update s call, train)) := by
  have hctl : control s call
      = (transmit_state_ (control_update s call)).map
          (fun train => (control_update s call, train)) := by
    simp only [control]
    cases transmit_state_ (control_update s call) <;> rfl
  refine ⟨?_, ?_, ?_, ?_, ?_, hctl, ?_⟩
  · cases hm : call.mode <;> cases ht : call.target_temperature <;>
      simp [control_update, ClimateCall.get_mode, ClimateCall.get_target_temperature, hm, ht]
  · cases hm : call.mode <;> cases ht : call.target_temperature <;>
      simp [control_update, ClimateCall.get_mode, ClimateCall.get_target_temperature, hm, ht]
  · cases hm : call.mode <;> cases ht : call.target_temperature <;>
      simp [control_update, ClimateCall.get_mode, ClimateCall.get_target_temperature, hm, ht]
  · cases hm : call.mode <;> cases ht : call.target_temperature <;>
      simp [control_update, ClimateCall.get_mode, ClimateCall.get_target_temperature, hm, ht]
  · simp [control_update]
  · intro h
    have hW : ∃ W, remote_state (control_update s call).mode
        (control_update s call).target_temperature = some W := by
      rcases h with h | h
      · rw [h]
        exact ⟨_, rfl⟩
      · exact remote_state_defined _ _ h
    obtain ⟨W, hW⟩ := hW
    exact ⟨transmit_word W, by rw [hctl]; simp [transmit_state_, hW]⟩

/-- The conversion to `uint8_t` leaves an 8-bit value as it is, and lines 116-117
leave `temp` at the larger of it and 17. -/
theorem clamped_temp_eq (T : Nat) (h8 : T < 256) : clamped_temp T = max T 17 := by
  have hT : toUInt8 T = T := Nat.mod_eq_of_lt h8
  simp only [clamped_temp, hT, COOLIX_TEMP_MIN]

/-- C15: only the lower bound of the clamp is applied. For every non-OFF mode and every
8-bit target temperature T, `temp` is max(T, 17) and the table index used is
max(T, 17) - 17: the word is composed from the table entry at that index when there is
one. Every T below 17 yields the word of T = 17; the index lies inside the 14-entry
table exactly when T ≤ 30; for T above 30 the index is T - 17, at least 14 and outside
the table, and no word is defined. -/
theorem clamp_lower_bound_only (mode : ClimateMode) (T : Nat)
    (hmode : mode ≠ CLIMATE_MODE_OFF) (h8 : T < 256) :
    clamped_temp T = max T 17 ∧
      remote_state mode T
        = (COOLIX_TEMP_MAP[max T 17 - 17]?).map
            (fun code => ((base_state mode &&& not32 COOLIX_TEMP_MASK) ||| (code <<< 4))
              % 2 ^ 32) ∧
      (T < 17 → remote_state mode T = remote_state mode 17) ∧
      (max T 17 - 17 < COOLIX_TEMP_MAP.length ↔ T ≤ 30) ∧
      (30 < T → max T 17 - 17 = T - 17 ∧ 14 ≤ T - 17 ∧
        COOLIX_TEMP_MAP[T - 17]? = none ∧ remote_state mode T = none) := by
  have hlen : COOLIX_TEMP_MAP.length = 14 := rfl
  have hword : ∀ t : Nat, t < 256 → remote_state mode t
      = (COOLIX_TEMP_MAP[max t 17 - 17]?).map
          (fun code => ((base_state mode &&& not32 COOLIX_TEMP_MASK) ||| (code <<< 4))
            % 2 ^ 32) := by
    intro t ht
    simp only [remote_state, if_pos hmode, clamped_temp_eq t ht, COOLIX_TEMP_MIN]
    cases COOLIX_TEMP_MAP[max t 17 - 17]? <;> rfl
  refine ⟨clamped_temp_eq T h8, hword T h8, ?_, ?_, ?_⟩
  · intro hlt
    rw [hword T h8, hword 17 (by decide)]
    have : max T 17 = max 17 17 := by omega
    rw [this]
  · rw [hlen]
    omega
  · intro hgt
    have hidx : max T 17 - 17 = T - 17 := by omega
    have hnone : COOLIX_TEMP_MAP[T - 17]? = none := by
      apply List.getElem?_eq_none
      rw [hlen]
      omega
    refine ⟨hidx, by omega, hnone, ?_⟩
    rw [hword T h8, hidx, hnone]
    rfl

/-- Witness of C15: mode COOL at T = 31. -/
theorem clamp_lower_bound_only_witness :
    CLIMATE_MODE_COOL ≠ CLIMATE_MODE_OFF ∧ 31 < 256 ∧
    (clamped_temp 31 = max 31 17 ∧
      remote_state CLIMATE_MODE_COOL 31
        = (COOLIX_TEMP_MAP[max 31 17 - 17]?).map
            (fun code =>
              ((base_state CLIMATE_MODE_COOL &&& not32 COOLIX_TEMP_MASK) ||| (code <<< 4))
                % 2 ^ 32) ∧
      (31 < 17 → remote_state CLIMATE_MODE_COOL 31 = remote_state CLIMATE_MODE_COOL 17) ∧
      (max 31 17 - 17 < COOLIX_TEMP_MAP.length ↔ 31 ≤ 30) ∧
      (30 < 31 → max 31 17 - 17 = 31 - 17 ∧ 14 ≤ 31 - 17 ∧
        COOLIX_TEMP_MAP[31 - 17]? = none ∧ remote_state CLIMATE_MODE_COOL 31 = none)) :=
  ⟨by decide, by decide,
   clamp_lower_bound_only CLIMATE_MODE_COOL 31 (by decide) (by decide)⟩

/-- C19: for a mode that reaches the `default:` branch of the switch with the guard of
line 114 open (FAN_ONLY or DRY) and every target temperature T ≤ 30, `transmit_state_`
does not compose the OFF codeword: the word is 0xB27BE0 with bits 4-7 cleared, or-ed
with the table entry at index max(T, 17) - 17 shifted left by 4, and it differs from
0xB27BE0, whose temperature nibble 1110 (`kCoolixFanTempCode`) is not in the table. -/
theorem remote_state_default_branch (mode : ClimateMode) (T : Nat)
    (hmode : mode = CLIMATE_MODE_FAN_ONLY ∨ mode = CLIMATE_MODE_DRY) (h30 : T ≤ 30) :
    ∃ code W, COOLIX_TEMP_MAP[max T 17 - 17]? = some code ∧
      remote_state mode T = some W ∧
      W = (0xB27BE0 &&& not32 0xF0) ||| (code <<< 4) ∧
      W ≠ 0xB27BE0 ∧
      0xB27BE0 / 16 % 16 = 0b1110 ∧ kCoolixFanTempCode = 0b1110 ∧
      0b1110 ∉ COOLIX_TEMP_MAP := by
  rcases hmode with h | h <;> subst h <;> interval_cases T <;>
    exact ⟨_, _, rfl, rfl, by decide⟩

/-- Witness of C19: mode DRY at T = 22 composes 0xB27B70. -/
theorem remote_state_default_branch_witness :
    (CLIMATE_MODE_DRY = CLIMATE_MODE_FAN_ONLY ∨ CLIMATE_MODE_DRY = CLIMATE_MODE_DRY) ∧
    22 ≤ 30 ∧
    ∃ code W, COOLIX_TEMP_MAP[max 22 17 - 17]? = some code ∧
      remote_state CLIMATE_MODE_DRY 22 = some W ∧
      W = (0xB27BE0 &&& not32 0xF0) ||| (code <<< 4) ∧
      W ≠ 0xB27BE0 ∧
      0xB27BE0 / 16 % 16 = 0b1110 ∧ kCoolixFanTempCode = 0b1110 ∧
      0b1110 ∉ COOLIX_TEMP_MAP :=
  ⟨by decide, by decide,
   remote_state_default_branch CLIMATE_MODE_DRY 22 (by decide) (by decide)⟩

/-- C20: the temperature code table is a Gray-code sequence: for every index i in
0..12 the entries at i and i + 1 differ in exactly one bit. So for a fixed non-OFF mode
and 17 ≤ T < 30, the words composed for T and for T + 1 differ in exactly one bit, a bit
of the temperature field (bits 4-7). -/
theorem temp_map_gray_code (mode : ClimateMode) (T : Nat)
    (hmode : mode ≠ CLIMATE_MODE_OFF) (h17 : 17 ≤ T) (h30 : T + 1 ≤ 30) :
    (∀ i : Fin 13, ∃ a b, COOLIX_TEMP_MAP[i.val]? = some a ∧
        COOLIX_TEMP_MAP[i.val + 1]? = some b ∧ differ_in_one_bit a b) ∧
      ∃ W W1, remote_state mode T = some W ∧ remote_state mode (T + 1) = some W1 ∧
        differ_in_one_bit W W1 ∧ ∃ k, k < 8 ∧ 4 ≤ k ∧ W ^^^ W1 = 2 ^ k := by
  have h29 : T ≤ 29 := by omega
  constructor
  · intro i
    fin_cases i <;> exact ⟨_, _, rfl, rfl, by decide⟩
  · cases mode
    · exact absurd rfl hmode
    all_goals
      interval_cases T <;> exact ⟨_, _, rfl, rfl, by decide, by decide⟩

/-- Witness of C20: mode HEAT, from 24 to 25 degrees the words 0xB2BF4C and 0xB2BFCC
differ in bit 7 only. -/
theorem temp_map_gray_code_witness :
    CLIMATE_MODE_HEAT ≠ CLIMATE_MODE_OFF ∧ 17 ≤ 24 ∧ 24 + 1 ≤ 30 ∧
    ((∀ i : Fin 13, ∃ a b, COOLIX_TEMP_MAP[i.val]? = some a ∧
        COOLIX_TEMP_MAP[i.val + 1]? = some b ∧ differ_in_one_bit a b) ∧
      ∃ W W1, remote_state CLIMATE_MODE_HEAT 24 = some W ∧
        remote_state CLIMATE_MODE_HEAT (24 + 1) = some W1 ∧
        differ_in_one_bit W W1 ∧ ∃ k, k < 8 ∧ 4 ≤ k ∧ W ^^^ W1 = 2 ^ k) :=
  ⟨by decide, by decide, by decide,
   temp_map_gray_code CLIMATE_MODE_HEAT 24 (by decide) (by decide) (by decide)⟩

/-! ## Least-significant-bit-first order -/

theorem lsb_pairs_succ (om os zm zs data n : Nat) :
    lsb_pairs om os zm zs data (n + 1)
      = bit_pair om os zm zs (data.testBit 0) :: lsb_pairs om os zm zs (data >>> 1) n := by
  simp only [lsb_pairs, List.range_succ_eq_map, List.map_cons, List.map_map]
  congr 1
  apply List.map_congr_left
  intro k _
  simp only [Function.comp, Nat.succ_eq_add_one, Nat.testBit_shiftRight]
  congr 2
  omega

theorem send_data_lsb_eq (om os zm zs : Nat) :
    ∀ (n data bit : Nat) (d : RemoteTransmitData),
      send_data_lsb om os zm zs data bit (bit + n) d
        = append_pairs d (lsb_pairs om os zm zs data n) := by
  intro n
  induction n with
  | zero =>
    intro data bit d
    rw [send_data_lsb, if_neg (by omega)]
    simp [lsb_pairs, append_pairs_nil]
  | succ n ih =>
    intro data bit d
    have hbit := send_bit_cond d om os zm zs data 0
    rw [Nat.pow_zero] at hbit
    have hn : bit + (n + 1) = (bit + 1) + n := by omega
    rw [send_data_lsb, if_pos (by omega), hbit, hn, ih, append_pairs_append, lsb_pairs_succ]
    rfl

theorem send_data_lsb_first (d : RemoteTransmitData) (om os zm zs data nbits : Nat) :
    send_data_ d om os zm zs data nbits false
      = append_pairs d (lsb_pairs om os zm zs data nbits) := by
  by_cases h0 : nbits = 0
  · subst h0
    simp [send_data_, lsb_pairs, append_pairs_nil]
  · have h := send_data_lsb_eq om os zm zs nbits data 0 d
    rw [Nat.zero_add] at h
    simp [send_data_, h0, h]

theorem lsb_pairs_eq_reverse (om os zm zs data n : Nat) :
    lsb_pairs om os zm zs data n = (msb_pairs om os zm zs data n).reverse := by
  apply List.ext_getElem
  · simp [lsb_pairs, msb_pairs]
  · intro i h1 h2
    have hi : i < n := by simpa [lsb_pairs] using h1
    have hidx : n - 1 - (n - 1 - i) = i := by omega
    simp [lsb_pairs, msb_pairs, hidx]

/-- C18: for every 64-bit data value, every nbits (nbits > 64 included) and every choice
of the four timings, the pairs `send_data_` appends in least-significant-bit-first order
are the pairs `ps` it appends in most-significant-bit-first order, reversed; there are
nbits of them. For nbits > 64 the nbits - 64 pairs of zero padding lead in
most-significant-bit-first order and trail in least-significant-bit-first order. -/
theorem send_data_lsb_reverse (d : RemoteTransmitData) (onemark onespace zeromark zerospace
    data nbits : Nat) (hdata : data < 2 ^ 64) :
    ∃ ps : List (Nat × Nat),
      send_data_ d onemark onespace zeromark zerospace data nbits true
        = { d with data := d.data ++ ofPairs ps } ∧
      send_data_ d onemark onespace zeromark zerospace data nbits false
        = { d with data := d.data ++ ofPairs ps.reverse } ∧
      ps.length = nbits ∧
      (64 < nbits → ∃ ps64 : List (Nat × Nat), ps64.length = 64 ∧
        ps = List.replicate (nbits - 64) (zeromark, zerospace) ++ ps64 ∧
        ps.reverse = ps64.reverse ++ List.replicate (nbits - 64) (zeromark, zerospace)) := by
  refine ⟨msb_pairs onemark onespace zeromark zerospace data nbits, ?_, ?_,
    msb_pairs_length _ _ _ _ _ _, ?_⟩
  · rw [send_data_msb_first d _ _ _ _ data nbits hdata]
    rfl
  · rw [send_data_lsb_first, lsb_pairs_eq_reverse]
    rfl
  · intro hgt
    have hpad := msb_pairs_pad onemark onespace zeromark zerospace data 64 nbits hdata
      (by omega)
    refine ⟨msb_pairs onemark onespace zeromark zerospace data 64,
      msb_pairs_length _ _ _ _ _ _, hpad, ?_⟩
    rw [hpad, List.reverse_append, List.reverse_replicate]

/-- Witness of C18: data = 5 sent over 70 bits in both orders. -/
theorem send_data_lsb_reverse_witness :
    5 < 2 ^ 64 ∧
    ∃ ps : List (Nat × Nat),
      send_data_ RemoteTransmitData.fresh 560 1680 560 560 5 70 true
        = { carrier_frequency := 0, data := ofPairs ps } ∧
      send_data_ RemoteTransmitData.fresh 560 1680 560 560 5 70 false
        = { carrier_frequency := 0, data := ofPairs ps.reverse } ∧
      ps.length = 70 ∧
      (64 < 70 → ∃ ps64 : List (Nat × Nat), ps64.length = 64 ∧
        ps = List.replicate (70 - 64) (560, 560) ++ ps64 ∧
        ps.reverse = ps64.reverse ++ List.replicate (70 - 64) (560, 560)) :=
  ⟨by decide,
   send_data_lsb_reverse RemoteTransmitData.fresh 560 1680 560 560 5 70 (by decide)⟩

/-! ## Duration of the pulse train -/

theorem total_duration_ofPairs (c : Nat) (ps : List (Nat × Nat)) :
    total_duration { carrier_frequency := c, data := ofPairs ps } = pairs_us ps := by
  simp only [total_duration, pairs_us]
  induction ps with
  | nil => rfl
  | cons p ps ih =>
    obtain ⟨m, s⟩ := p
    simp only [ofPairs, List.map_cons, List.sum_cons, Pulse.us, ih]
    omega

theorem pairs_us_append (a b : List (Nat × Nat)) :
    pairs_us (a ++ b) = pairs_us a + pairs_us b := by
  simp [pairs_us]

theorem testBit_complement (b k : Nat) (hk : k < 8) :
    (b ^^^ 0xFF).testBit k = !b.testBit k := by
  have h : (0xFF : Nat).testBit k = true := by
    interval_cases k <;> decide
  rw [Nat.testBit_xor, h]
  simp

theorem spec_byte_pairs_explicit (b : Nat) :
    spec_byte_pairs b
      = [bit_pair 560 1680 560 560 (b.testBit 7), bit_pair 560 1680 560 560 (b.testBit 6),
         bit_pair 560 1680 560 560 (b.testBit 5), bit_pair 560 1680 560 560 (b.testBit 4),
         bit_pair 560 1680 560 560 (b.testBit 3), bit_pair 560 1680 560 560 (b.testBit 2),
         bit_pair 560 1680 560 560 (b.testBit 1), bit_pair 560 1680 560 560 (b.testBit 0)] := by
  rfl

theorem byte_and_complement_pairs (b : Nat) :
    pairs_us (spec_byte_pairs b ++ spec_byte_pairs (b ^^^ 0xFF)) = 26880 ∧
      (spec_byte_pairs b ++ spec_byte_pairs (b ^^^ 0xFF)).count (560, 1680) = 8 ∧
      (spec_byte_pairs b ++ spec_byte_pairs (b ^^^ 0xFF)).count (560, 560) = 8 := by
  rw [spec_byte_pairs_explicit b, spec_byte_pairs_explicit (b ^^^ 0xFF),
    testBit_complement b 7 (by decide), testBit_complement b 6 (by decide),
    testBit_complement b 5 (by decide), testBit_complement b 4 (by decide),
    testBit_complement b 3 (by decide), testBit_complement b 2 (by decide),
    testBit_complement b 1 (by decide), testBit_complement b 0 (by decide)]
  generalize b.testBit 7 = x7
  generalize b.testBit 6 = x6
  generalize b.testBit 5 = x5
  generalize b.testBit 4 = x4
  generalize b.testBit 3 = x3
  generalize b.testBit 2 = x2
  generalize b.testBit 1 = x1
  generalize b.testBit 0 = x0
  cases x7 <;> cases x6 <;> cases x5 <;> cases x4 <;> cases x3 <;> cases x2 <;>
    cases x1 <;> cases x0 <;> decide

theorem spec_frame_pairs (W : Nat) :
    pairs_us (spec_frame W) = 95200 ∧ (spec_frame W).count (560, 1680) = 24 ∧
      (spec_frame W).count (560, 560) = 24 := by
  obtain ⟨u0, c0, z0⟩ := byte_and_complement_pairs (W / 2 ^ 16 % 256)
  obtain ⟨u1, c1, z1⟩ := byte_and_complement_pairs (W / 2 ^ 8 % 256)
  obtain ⟨u2, c2, z2⟩ := byte_and_complement_pairs (W % 256)
  have hframe : spec_frame W
      = [(4480, 4480)]
        ++ ((spec_byte_pairs (W / 2 ^ 16 % 256) ++ spec_byte_pairs (W / 2 ^ 16 % 256 ^^^ 0xFF))
        ++ ((spec_byte_pairs (W / 2 ^ 8 % 256) ++ spec_byte_pairs (W / 2 ^ 8 % 256 ^^^ 0xFF))
        ++ ((spec_byte_pairs (W % 256) ++ spec_byte_pairs (W % 256 ^^^ 0xFF))
        ++ [(560, 5040)]))) := by
    simp [spec_frame, spec_bytes]
  have hus : ∀ A B C : List (Nat × Nat),
      pairs_us ([(4480, 4480)] ++ (A ++ (B ++ (C ++ [(560, 5040)]))))
        = 8960 + pairs_us A + pairs_us B + pairs_us C + 5600 := by
    intro A B C
    simp only [pairs_us_append]
    simp only [pairs_us, List.map_cons, List.map_nil, List.sum_cons, List.sum_nil]
    omega
  have hcount : ∀ (p : Nat × Nat) (A B C : List (Nat × Nat)),
      ([(4480, 4480)] ++ (A ++ (B ++ (C ++ [(560, 5040)])))).count p
        = [(4480, 4480)].count p + A.count p + B.count p + C.count p
          + [(560, 5040)].count p := by
    intro p A B C
    simp only [List.count_append]
    omega
  rw [hframe]
  refine ⟨?_, ?_, ?_⟩
  · rw [hus, u0, u1, u2]
  · rw [hcount, c0, c1, c2]
    rfl
  · rw [hcount, z0, z1, z2]
    rfl

theorem total_duration_transmit_word (W : Nat) :
    total_duration (transmit_word W) = 190400 := by
  rw [transmit_word_eq, total_duration_ofPairs, pairs_us_append, (spec_frame_pairs W).1]

/-- C13: the total duration of the pulse train of one `transmit_state_` call is the same
number of microseconds, 190400, for every mode and every target temperature T ≤ 30:
every byte is followed by its complement, so each of the two frames carries exactly 24
one-bit pairs (560, 1680) and 24 zero-bit pairs (560, 560) whatever the word is. -/
theorem total_duration_fixed (self : CoolixClimate) (hT : self.target_temperature ≤ 30) :
    ∃ (W : Nat) (train : RemoteTransmitData),
      remote_state self.mode self.target_temperature = some W ∧
      transmit_state_ self = some train ∧
      train.data = ofPairs (spec_frame W ++ spec_frame W) ∧
      (spec_frame W).count (560, 1680) = 24 ∧ (spec_frame W).count (560, 560) = 24 ∧
      total_duration train = 190400 := by
  obtain ⟨W, hW⟩ := remote_state_defined self.mode self.target_temperature hT
  refine ⟨W, transmit_word W, hW, by simp only [transmit_state_, hW], ?_,
    (spec_frame_pairs W).2.1, (spec_frame_pairs W).2.2, total_duration_transmit_word W⟩
  rw [transmit_word_eq]

/-- Witness of C13: mode AUTO at T = 25. -/
theorem total_duration_fixed_witness :
    25 ≤ 30 ∧
    ∃ (W : Nat) (train : RemoteTransmitData),
      remote_state CLIMATE_MODE_AUTO 25 = some W ∧
      transmit_state_ { mode := CLIMATE_MODE_AUTO, target_temperature := 25,
                        current_temperature := none, supports_cool_ := true,
                        supports_heat_ := true } = some train ∧
      train.data = ofPairs (spec_frame W ++ spec_frame W) ∧
      (spec_frame W).count (560, 1680) = 24 ∧ (spec_frame W).count (560, 560) = 24 ∧
      total_duration train = 190400 :=
  ⟨by decide,
   total_duration_fixed
     { mode := CLIMATE_MODE_AUTO, target_temperature := 25, current_temperature := none,
       supports_cool_ := true, supports_heat_ := true } (by decide)⟩

/-- C14 as stated fails: the pulse train of mode COOL at T = 22 lasts 190400
microseconds, which is not less than 100000. -/
theorem total_duration_not_below_100000 :
    ∃ train : RemoteTransmitData,
      transmit_state_ { mode := CLIMATE_MODE_COOL, target_temperature := 22,
                        current_temperature := none, supports_cool_ := true,
                        supports_heat_ := true } = some train ∧
      total_duration train = 190400 ∧ ¬ total_duration train < 100000 := by
  have hW : remote_state CLIMATE_MODE_COOL 22 = some 0xB2BF70 := by decide
  refine ⟨transmit_word 0xB2BF70, by simp only [transmit_state_, hW],
    total_duration_transmit_word _, ?_⟩
  rw [total_duration_transmit_word]
  decide

/-- C14, amended: for every mode and every target temperature T ≤ 30, the total duration
of the pulse train of one `transmit_state_` call (both frames, all marks and spaces
summed) is 190400 microseconds, strictly less than 200000 microseconds. -/
theorem total_duration_below_200000 (self : CoolixClimate)
    (hT : self.target_temperature ≤ 30) :
    ∃ train : RemoteTransmitData,
      transmit_state_ self = some train ∧ total_duration train = 190400 ∧
      total_duration train < 200000 := by
  obtain ⟨W, hW⟩ := remote_state_defined self.mode self.target_temperature hT
  refine ⟨transmit_word W, by simp only [transmit_state_, hW],
    total_duration_transmit_word W, ?_⟩
  rw [total_duration_transmit_word]
  decide

/-- Witness of amended C14: mode HEAT at T = 30. -/
theorem total_duration_below_200000_witness :
    30 ≤ 30 ∧
    ∃ train : RemoteTransmitData,
      transmit_state_ { mode := CLIMATE_MODE_HEAT, target_temperature := 30,
                        current_temperature := none, supports_cool_ := true,
                        supports_heat_ := true } = some train ∧
      total_duration train = 190400 ∧ total_duration train < 200000 :=
  ⟨by decide,
   total_duration_below_200000
     { mode := CLIMATE_MODE_HEAT, target_temperature := 30, current_temperature := none,
       supports_cool_ := true, supports_heat_ := true } (by decide)⟩

/-! ## Injectivity of the composition -/

theorem valid_word_fields (m : ClimateMode) (T : Nat)
    (hm : m = CLIMATE_MODE_AUTO ∨ m = CLIMATE_MODE_COOL ∨ m = CLIMATE_MODE_HEAT)
    (h17 : 17 ≤ T) (h30 : T ≤ 30) :
    ∃ W, remote_state m T = some W ∧ W < 2 ^ 24 ∧ W / 2 ^ 16 = 0xB2 ∧ W ≠ 0xB27BE0 ∧
      COOLIX_TEMP_MAP.indexOf (W / 16 % 16) + 17 = T ∧
      W &&& not32 COOLIX_TEMP_MASK = base_state m &&& not32 COOLIX_TEMP_MASK := by
  rcases hm with h | h | h <;> subst h <;> interval_cases T <;>
    exact ⟨_, rfl, by decide⟩

/-- C16: composition is injective on the valid states. For two states (m1, T1) and
(m2, T2) with modes among AUTO, COOL, HEAT and temperatures in 17..30, the words W1 and
W2 are composed, and they are equal only if m1 = m2 and T1 = T2; W1 is not the OFF
codeword 0xB27BE0, which is what OFF composes for every temperature (together 3 × 14 + 1
= 43 states with 43 different words); every such word, the OFF codeword included, is
below 2^24 and has high byte 0xB2. -/
theorem remote_state_injective (m1 m2 : ClimateMode) (T1 T2 : Nat)
    (hm1 : m1 = CLIMATE_MODE_AUTO ∨ m1 = CLIMATE_MODE_COOL ∨ m1 = CLIMATE_MODE_HEAT)
    (hm2 : m2 = CLIMATE_MODE_AUTO ∨ m2 = CLIMATE_MODE_COOL ∨ m2 = CLIMATE_MODE_HEAT)
    (hT1 : 17 ≤ T1 ∧ T1 ≤ 30) (hT2 : 17 ≤ T2 ∧ T2 ≤ 30) :
    ∃ W1 W2, remote_state m1 T1 = some W1 ∧ remote_state m2 T2 = some W2 ∧
      (W1 = W2 → m1 = m2 ∧ T1 = T2) ∧
      (∀ T : Nat, remote_state CLIMATE_MODE_OFF T = some 0xB27BE0) ∧
      W1 ≠ 0xB27BE0 ∧
      W1 < 2 ^ 24 ∧ W1 / 2 ^ 16 = 0xB2 ∧
      0xB27BE0 < 2 ^ 24 ∧ 0xB27BE0 / 2 ^ 16 = 0xB2 ∧
      3 * COOLIX_TEMP_MAP.length + 1 = 43 := by
  obtain ⟨W1, hW1, hlt1, hhi1, hoff1, hidx1, hbase1⟩ :=
    valid_word_fields m1 T1 hm1 hT1.1 hT1.2
  obtain ⟨W2, hW2, -, -, -, hidx2, hbase2⟩ := valid_word_fields m2 T2 hm2 hT2.1 hT2.2
  refine ⟨W1, W2, hW1, hW2, ?_, fun _ => rfl, hoff1, hlt1, hhi1, by decide, by decide, rfl⟩
  intro heq
  subst heq
  constructor
  · have hb : base_state m1 &&& not32 COOLIX_TEMP_MASK
        = base_state m2 &&& not32 COOLIX_TEMP_MASK := hbase1.symm.trans hbase2
    rcases hm1 with h | h | h <;> rcases hm2 with k | k | k <;> subst h <;> subst k <;>
      first
        | rfl
        | exact absurd hb (by decide)
  · omega

/-- Witness of C16: (COOL, 22) and (HEAT, 22) compose different words. -/
theorem remote_state_injective_witness :
    (17 ≤ 22 ∧ 22 ≤ 30) ∧
    ∃ W1 W2, remote_state CLIMATE_MODE_COOL 22 = some W1 ∧
      remote_state CLIMATE_MODE_HEAT 22 = some W2 ∧
      (W1 = W2 → CLIMATE_MODE_COOL = CLIMATE_MODE_HEAT ∧ 22 = 22) ∧
      (∀ T : Nat, remote_state CLIMATE_MODE_OFF T = some 0xB27BE0) ∧
      W1 ≠ 0xB27BE0 ∧
      W1 < 2 ^ 24 ∧ W1 / 2 ^ 16 = 0xB2 ∧
      0xB27BE0 < 2 ^ 24 ∧ 0xB27BE0 / 2 ^ 16 = 0xB2 ∧
      3 * COOLIX_TEMP_MAP.length + 1 = 43 :=
  ⟨by decide,
   remote_state_injective CLIMATE_MODE_COOL CLIMATE_MODE_HEAT 22 22
     (by decide) (by decide) (by decide) (by decide)⟩

/-! ## Reading the word back from the pulse train -/

theorem toPairs_ofPairs (ps : List (Nat × Nat)) : toPairs (ofPairs ps) = ps := by
  induction ps with
  | nil => rfl
  | cons p ps ih =>
    obtain ⟨m, s⟩ := p
    simp [ofPairs, toPairs, ih]

theorem decode_bit_pair (x : Bool) :
    decode_bit (bit_pair 560 1680 560 560 x) = x.toNat := by
  cases x <;> rfl

theorem testBit_toNat (b k : Nat) : (b.testBit k).toNat = b / 2 ^ k % 2 := by
  rw [Nat.testBit_to_div_mod]
  have h : b / 2 ^ k % 2 < 2 := Nat.mod_lt _ (by decide)
  by_cases h1 : b / 2 ^ k % 2 = 1
  · simp [h1]
  · have h0 : b / 2 ^ k % 2 = 0 := by omega
    simp [h0]

theorem foldl_bits_acc (bits : List Nat) :
    ∀ acc : Nat, bits.foldl (fun a b => 2 * a + b) acc
      = acc * 2 ^ bits.length + bits.foldl (fun a b => 2 * a + b) 0 := by
  induction bits with
  | nil => intro acc; simp
  | cons b bits ih =>
    intro acc
    rw [List.foldl_cons, List.foldl_cons, ih (2 * acc + b), ih (2 * 0 + b), List.length_cons]
    ring

theorem bits_value_append (xs ys : List Nat) :
    bits_value (xs ++ ys) = bits_value xs * 2 ^ ys.length + bits_value ys := by
  simp only [bits_value, List.foldl_append]
  exact foldl_bits_acc ys _

theorem decode_msb_pairs (b n : Nat) :
    bits_value ((msb_pairs 560 1680 560 560 b n).map decode_bit) = b % 2 ^ n := by
  induction n with
  | zero => simp [msb_pairs, bits_value, Nat.mod_one]
  | succ n ih =>
    have hcons : ∀ (x : Nat) (xs : List Nat),
        bits_value (x :: xs) = x * 2 ^ xs.length + bits_value xs := by
      intro x xs
      have h := bits_value_append [x] xs
      simpa [bits_value] using h
    rw [msb_pairs_succ, List.map_cons, hcons, ih, decode_bit_pair, testBit_toNat,
      List.length_map, msb_pairs_length, Nat.mod_pow_succ]
    ring

theorem decode_byte (b : Nat) :
    bits_value ((spec_byte_pairs b).map decode_bit) = b % 256 :=
  decode_msb_pairs b 8

theorem decode_frame_select (W : Nat) :
    decode_frame (spec_frame W)
      = bits_value ((spec_byte_pairs (W / 2 ^ 16 % 256)).map decode_bit
          ++ ((spec_byte_pairs (W / 2 ^ 8 % 256)).map decode_bit
          ++ (spec_byte_pairs (W % 256)).map decode_bit)) := by
  rfl

theorem decode_frame_spec_frame (W : Nat) (hW : W < 2 ^ 24) :
    decode_frame (spec_frame W) = W := by
  rw [decode_frame_select, bits_value_append, bits_value_append, decode_byte, decode_byte,
    decode_byte]
  simp only [List.length_append, List.length_map, spec_byte_pairs, List.length_range]
  omega

/-- C17: the pulse train can be read back to the command word. For every 24-bit word
W the train of `transmit_word W` is 100 pairs; in each of its two frames of 50 pairs,
the 48 payload pairs after the header pair, read with a space of 1680 us as bit 1 and a
space of 560 us as bit 0, carry W at payload positions 0-7, 16-23 and 32-39, most
significant bit first. Hence two different 24-bit words never give the same train. -/
theorem pulse_train_decodes (W : Nat) (hW : W < 2 ^ 24) :
    (toPairs (transmit_word W).data).length = 100 ∧
      decode_frame ((toPairs (transmit_word W).data).take 50) = W ∧
      decode_frame ((toPairs (transmit_word W).data).drop 50) = W ∧
      (∀ W0 : Nat, W0 < 2 ^ 24 → transmit_word W0 = transmit_word W → W0 = W) := by
  have hpairs : ∀ V : Nat, toPairs (transmit_word V).data = spec_frame V ++ spec_frame V := by
    intro V
    rw [transmit_word_eq, toPairs_ofPairs]
  have htake : ∀ V : Nat, V < 2 ^ 24 →
      decode_frame ((toPairs (transmit_word V).data).take 50) = V := by
    intro V hV
    rw [hpairs, List.take_left' (spec_frame_length V)]
    exact decode_frame_spec_frame V hV
  refine ⟨?_, htake W hW, ?_, ?_⟩
  · rw [hpairs, List.length_append, spec_frame_length]
  · rw [hpairs, List.drop_left' (spec_frame_length W)]
    exact decode_frame_spec_frame W hW
  · intro W0 hW0 heq
    rw [← htake W0 hW0, heq, htake W hW]

/-- Witness of C17: the word 0xB2BF70 of mode COOL at 22 degrees. -/
theorem pulse_train_decodes_witness :
    0xB2BF70 < 2 ^ 24 ∧
    (toPairs (transmit_word 0xB2BF70).data).length = 100 ∧
      decode_frame ((toPairs (transmit_word 0xB2BF70).data).take 50) = 0xB2BF70 ∧
      decode_frame ((toPairs (transmit_word 0xB2BF70).data).drop 50) = 0xB2BF70 ∧
      (∀ W0 : Nat, W0 < 2 ^ 24 →
        transmit_word W0 = transmit_word 0xB2BF70 → W0 = 0xB2BF70) :=
  ⟨by decide, pulse_train_decodes 0xB2BF70 (by decide)⟩

end coolix
end esphome
